import Mathlib

/-!
# Shallow embedding of the HLT handshake-Verilator wrapper generator

This development embeds `tools/hlt/WrapGen/HandshakeVerilatorWrapper.cpp`
(namespace `circt_hls`, class `HandshakeVerilatorWrapper`) and proves
properties of its code-emission functions.

Modelling decisions:
* MLIR types are modelled by `FType` (fixed-width integers, memrefs with a
  static shape, and an opaque "other" case for everything else).
* FIRRTL types are modelled by `FIRRTLType` (ground types carrying the result
  of `getBitWidthOrSentinel`, and bundles of named elements).
* The generator writes C++ text to a `raw_indented_ostream`.  We model the
  output at whole-statement granularity: every `osi() << ...` statement group
  of the source becomes one `Stmt` event carrying the strings the source
  interpolates into it.  A fallible emission step is a pair of the events
  written so far and an optional error (`EmitResult`); `assert`s in the
  source are modelled as `EmitErr.assertFail` outcomes.
-/

namespace HLT

/-- MLIR value types, as used by the wrapper (`mlir::Type`).  `memref` carries
the static shape (`MemRefType::getShape`) and the element type. -/
inductive FType where
  | int (width : Nat)
  | memref (shape : List Nat) (elem : FType)
  | other (desc : String)
deriving DecidableEq, Repr

/-- FIRRTL types (`firrtl::FIRRTLType`): ground types carry the value of
`getBitWidthOrSentinel` (negative = sentinel), bundles carry their named
elements (`firrtl::BundleType`). -/
inductive FIRRTLType where
  | ground (width : Int)
  | bundle (elements : List (String × FIRRTLType))

/-- A FIRRTL module port: `getPortName` / `getPortType` of `FModuleLike`. -/
structure Port where
  name : String
  type : FIRRTLType

/-- The kernel hardware module (`firrtl::FModuleLike`), as the ordered list of
its ports. -/
structure HWModule where
  ports : List Port

/-- The function type of the wrapped software function
(`funcOp.getFunctionType()`): ordered argument and result types. -/
structure FunctionType where
  inputs : List FType
  results : List FType
deriving DecidableEq, Repr

/-- A `handshake::ExternalMemoryOp` consumer of a memref argument, reduced to
the fields the generator reads: `getLdCount` / `getStCount`. -/
structure ExternalMemoryOp where
  ldCount : Nat
  stCount : Nat
deriving DecidableEq, Repr

/-- Failure outcomes of an emission step.  `assertFail` models a C++ `assert`
hard stop; `emitFail` models a returned `mlir::failure()` diagnostic. -/
inductive EmitErr where
  | assertFail (msg : String)
  | emitFail (msg : String)
deriving DecidableEq, Repr

/-- One emitted statement of the generated wrapper.  Each constructor
corresponds to one `osi() << ...` statement group of the source, carrying the
strings the source interpolates.  `raw` covers fixed boilerplate lines. -/
inductive Stmt where
  | raw (text : String)
  | inCtrlWire (portName : String)
  | outCtrlWire (portName : String)
  | typeAlias (aliasName : String) (typeTok : String)
  | typeAssert (typeName : String) (valueExpr : String)
  | inputPortReg (typeAlias : String) (portName : String)
  | outputPortReg (typeAlias : String) (portName : String)
  | memInterfaceDecl (name : String) (elemTok : String) (addrTok : String) (size : Nat)
  | loadPortReg (dataSig : String) (addrSig : String) (doneSig : String)
      (elemTok : String) (addrTok : String)
  | storePortReg (dataSig : String) (addrSig : String) (doneSig : String)
      (elemTok : String) (addrTok : String)
deriving DecidableEq, Repr

/-- Result of a fallible emission step: the statements written to the output
stream before the step returned, and the error it stopped with (if any). -/
abbrev EmitResult := List Stmt × Option EmitErr

/-- Modelled from the spec: `emitVerilatorTypeFromWidth`
(`VerilatorEmitterUtils`) is not among the sources.  Per §4.1 the Port/Type
Emitter maps a bit width to a fixed-width-integer type token and a
zero/unknown bit width is a fatal, unrecoverable failure. -/
def emitVerilatorTypeFromWidth (w : Nat) : Except String String :=
  if w = 0 then .error "unsupported zero-width type"
  else .ok ("uint" ++ toString w ++ "_t")

/-- Modelled from the spec: `emitVerilatorType` (`VerilatorEmitterUtils`) is
not among the sources.  Per §4.1 it succeeds exactly on fixed-width integers
and memories of fixed-width integers, and fails with an unsupported-type
diagnostic otherwise. -/
def emitVerilatorType : FType → Except String String
  | .int w => emitVerilatorTypeFromWidth w
  | .memref _ (.int w) => emitVerilatorTypeFromWidth w
  | _ => .error "unsupported type"

/-- `FIRRTLType::getBitWidthOrSentinel`: width of a ground type, a negative
sentinel for aggregates. -/
def getBitWidthOrSentinel : FIRRTLType → Int
  | .ground w => w
  | .bundle _ => -2

/-- Conversion of the `int32_t` result of `getBitWidthOrSentinel` to the
C++ `unsigned` return type of `getBundleDataWidth`. -/
def toUnsigned32 (i : Int) : Nat := (i % (2 ^ 32 : Int)).toNat

/-- `BundleType::getElement(name)`: the first element with the given name. -/
def getElement (els : List (String × FIRRTLType)) (nm : String) :
    Option (String × FIRRTLType) :=
  els.find? (fun e => e.1 == nm)

/-- `HandshakeVerilatorWrapper::getBundleDataWidth`: the data width of the
`"data"` element of a bundle; `none` models the failed
`assert(dataSig.hasValue())`. -/
def getBundleDataWidth (els : List (String × FIRRTLType)) : Option Nat :=
  (getElement els "data").map (fun e => toUnsigned32 (getBitWidthOrSentinel e.2))

/-- `type.cast<firrtl::BundleType>()`: `none` models the failed cast assert. -/
def castBundle : FIRRTLType → Option (List (String × FIRRTLType))
  | .bundle els => some els
  | _ => none

/-- `getPortName(idx)` on the kernel module (out-of-range reads yield a
default; all uses in the claims are in range). -/
def getPortName (m : HWModule) (idx : Nat) : String :=
  (m.ports.getD idx ⟨"", .ground 0⟩).name

/-- `getPortType(idx)` on the kernel module. -/
def getPortType (m : HWModule) (idx : Nat) : FIRRTLType :=
  (m.ports.getD idx ⟨"", .ground 0⟩).type

/-- `HandshakeVerilatorWrapper::inCtrlIdx` = `funcOp.getNumArguments()`. -/
def inCtrlIdx (ft : FunctionType) : Nat := ft.inputs.length

/-- `HandshakeVerilatorWrapper::getInputName idx` =
`firrtlOp.getPortName(idx)`. -/
def getInputName (m : HWModule) (idx : Nat) : String := getPortName m idx

/-- `HandshakeVerilatorWrapper::getResName idx` =
`firrtlOp.getPortName(idx + inCtrlIdx() + 1)`. -/
def getResName (m : HWModule) (numArgs : Nat) (idx : Nat) : String :=
  getPortName m (idx + numArgs + 1)

/-- The prefix test `llvm::StringRef::startswith`. -/
def strStartsWith (s p : String) : Bool :=
  p.data.isPrefixOf s.data

/-- True for names starting with `ldAddr` or `stAddr` (the address-signal
naming convention tested at lines 172-173 of the source,
`llvm::StringRef::startswith`, spelled out over the character list so that
it computes by structural recursion). -/
def isAddrSig (nm : String) : Bool :=
  strStartsWith nm "ldAddr" || strStartsWith nm "stAddr"

/-- The loop body of lines 171-175: scan the bundle's elements, overwriting
`addrWidth` with `getBundleDataWidth(sig.type.cast<BundleType>())` at every
element whose name matches the address convention.  `acc` is the current
value of `addrWidth` (initially 0). -/
def resolveAddrGo : List (String × FIRRTLType) → Nat → Except EmitErr Nat
  | [], acc => .ok acc
  | (nm, t) :: rest, acc =>
    if isAddrSig nm then
      match castBundle t with
      | none => .error (.assertFail "cast<firrtl::BundleType> failed")
      | some inner =>
        match getBundleDataWidth inner with
        | none => .error (.assertFail "Expected bundle to have a data signal")
        | some w => resolveAddrGo rest w
    else resolveAddrGo rest acc

/-- The address-width scan of `emitExtMemPort` (lines 170-175), starting from
`addrWidth = 0`. -/
def resolveAddressWidth (els : List (String × FIRRTLType)) : Except EmitErr Nat :=
  resolveAddrGo els 0

/-- Formalisation of the claim's wording, for comparison: the data bit width
of the FIRST signal in the bundle whose name matches the load/store-address
naming convention. -/
def resolveAddressWidthSpec (els : List (String × FIRRTLType)) : Option Nat :=
  (els.find? (fun e => isAddrSig e.1)).bind
    (fun e => (castBundle e.2).bind getBundleDataWidth)

/-- The `addLoadPort` statement of one load-loop iteration (lines 195-219):
the signal triple `<name>_ldData<i>` (handshake data-in port),
`<name>_ldAddr<i>` (data-out port), `<name>_ldDone<i>` (data-free in port). -/
def mkLoadStmt (name etok atok : String) (i : Nat) : Stmt :=
  Stmt.loadPortReg (name ++ "_ldData" ++ toString i)
    (name ++ "_ldAddr" ++ toString i) (name ++ "_ldDone" ++ toString i)
    etok atok

/-- The `addStorePort` statement of one store-loop iteration (lines 225-249):
the signal triple `<name>_stData<i>` (data-out), `<name>_stAddr<i>`
(data-out), `<name>_stDone<i>` (data-free in). -/
def mkStoreStmt (name etok atok : String) (i : Nat) : Stmt :=
  Stmt.storePortReg (name ++ "_stData" ++ toString i)
    (name ++ "_stAddr" ++ toString i) (name ++ "_stDone" ++ toString i)
    etok atok

/-- The load-port loop of `emitExtMemPort` (lines 194-221): one
`addLoadPort` statement per index, each re-emitting the element and address
type tokens.  `i` is the current loop index, the second argument the number
of remaining iterations. -/
def emitLoadPortsFrom (name : String) (elem : FType) (addrWidth : Nat) :
    Nat → Nat → EmitResult
  | _, 0 => ([], none)
  | i, n + 1 =>
    match emitVerilatorType elem with
    | .error m => ([], some (.emitFail m))
    | .ok etok =>
      match emitVerilatorTypeFromWidth addrWidth with
      | .error m => ([], some (.emitFail m))
      | .ok atok =>
        let r := emitLoadPortsFrom name elem addrWidth (i + 1) n
        (mkLoadStmt name etok atok i :: r.1, r.2)

/-- The store-port loop of `emitExtMemPort` (lines 224-251), analogous to
the load-port loop but registering `addStorePort` statements. -/
def emitStorePortsFrom (name : String) (elem : FType) (addrWidth : Nat) :
    Nat → Nat → EmitResult
  | _, 0 => ([], none)
  | i, n + 1 =>
    match emitVerilatorType elem with
    | .error m => ([], some (.emitFail m))
    | .ok etok =>
      match emitVerilatorTypeFromWidth addrWidth with
      | .error m => ([], some (.emitFail m))
      | .ok atok =>
        let r := emitStorePortsFrom name elem addrWidth (i + 1) n
        (mkStoreStmt name etok atok i :: r.1, r.2)

/-- `HandshakeVerilatorWrapper::emitExtMemPort` (lines 162-253).  `users` is
`hsOp.getArgument(idx).getUsers()` reduced to the external-memory consumers
of the memref argument.  Steps, in source order: the unidimensionality
assert, the bundle cast of the port type, the address-width scan with its
assert, the memory-interface declaration (requiring both type emissions to
succeed), the exactly-one-user assert, the load loop, the store loop. -/
def emitExtMemPort (mod : HWModule) (users : List ExternalMemoryOp)
    (shape : List Nat) (elem : FType) (idx : Nat) : EmitResult :=
  if shape.length ≠ 1 then
    ([], some (.assertFail "Only support unidimensional memories"))
  else
    let name := getInputName mod idx
    match castBundle (getPortType mod idx) with
    | none => ([], some (.assertFail "cast<firrtl::BundleType> failed"))
    | some els =>
      match resolveAddressWidth els with
      | .error e => ([], some e)
      | .ok addrWidth =>
        if addrWidth = 0 then
          ([], some (.assertFail "Found no address signal in memory bundle!"))
        else
          match emitVerilatorType elem with
          | .error m => ([], some (.emitFail m))
          | .ok etok =>
            match emitVerilatorTypeFromWidth addrWidth with
            | .error m => ([], some (.emitFail m))
            | .ok atok =>
              let decl := Stmt.memInterfaceDecl name etok atok (shape.headD 0)
              if users.length ≠ 1 then
                ([decl],
                  some (.assertFail "expected exactly 1 user of a memref input argument"))
              else
                let extMemOp := users.headD ⟨0, 0⟩
                let lds := emitLoadPortsFrom name elem addrWidth 0 extMemOp.ldCount
                match lds.2 with
                | some e => (decl :: lds.1, some e)
                | none =>
                  let sts := emitStorePortsFrom name elem addrWidth 0 extMemOp.stCount
                  (decl :: (lds.1 ++ sts.1), sts.2)

/-- `HandshakeVerilatorWrapper::emitInputPort` (lines 255-273): memref
arguments delegate to `emitExtMemPort`; any other type emits the static
type assert on the `TArg<idx>` alias followed by the scalar input-port
registration at the resolved signal name. -/
def emitInputPort (mod : HWModule) (consumers : List (List ExternalMemoryOp))
    (t : FType) (idx : Nat) : EmitResult :=
  match t with
  | .memref shape elem => emitExtMemPort mod (consumers.getD idx []) shape elem idx
  | _ =>
    let arg := getInputName mod idx
    let dataType := "TArg" ++ toString idx
    ([Stmt.typeAssert dataType ("dut->" ++ arg ++ "_data"),
      Stmt.inputPortReg dataType arg], none)

/-- `HandshakeVerilatorWrapper::emitOutputPort` (lines 274-287): the static
type assert on the `TRes<idx>` alias followed by the scalar output-port
registration. -/
def emitOutputPort (mod : HWModule) (numArgs : Nat) (_t : FType) (idx : Nat) :
    EmitResult :=
  let arg := getResName mod numArgs idx
  let dataType := "TRes" ++ toString idx
  ([Stmt.typeAssert dataType ("dut->" ++ arg ++ "_data"),
    Stmt.outputPortReg dataType arg], none)

/-- The enumerate-and-emit loops of `emitSimulator` (lines 125-133): call
`f` on each element with its index, stopping at the first failure. -/
def emitPortsFrom (f : FType → Nat → EmitResult) : List FType → Nat → EmitResult
  | [], _ => ([], none)
  | t :: ts, i =>
    let r := f t i
    match r.2 with
    | some err => (r.1, some err)
    | none =>
      let rest := emitPortsFrom f ts (i + 1)
      (r.1 ++ rest.1, rest.2)

/-- The fixed statements of `emitSimulator` preceding the port loops:
class/constructor header, clock and reset wiring, and the two control-port
wirings at indices `inCtrlIdx()` and `numResults + inCtrlIdx() + 1`. -/
def simHeader (funcName : String) (ft : FunctionType) (mod : HWModule) : List Stmt :=
  [Stmt.raw ("class " ++ funcName ++ "Sim : public " ++ funcName ++ "SimInterface \x7b"),
   Stmt.raw "public:",
   Stmt.raw (funcName ++ "Sim() : " ++ funcName ++ "SimInterface() \x7b"),
   Stmt.raw "// --- Generic Verilator interface",
   Stmt.raw "interface.clock = &dut->clock;",
   Stmt.raw "interface.reset = &dut->reset;",
   Stmt.raw "// --- Handshake interface",
   Stmt.inCtrlWire (getInputName mod (inCtrlIdx ft)),
   Stmt.outCtrlWire (getResName mod (inCtrlIdx ft) ft.results.length),
   Stmt.raw "// --- Software interface",
   Stmt.raw "// - Input ports"]

/-- The closing braces of the constructor and class (lines 134-138). -/
def simFooter : List Stmt := [Stmt.raw "\x7d;", Stmt.raw "\x7d;"]

/-- `HandshakeVerilatorWrapper::emitSimulator` (lines 96-140): the fixed
header with the control wirings, then one emission per argument in order,
then one per result in order, aborting at the first failure. -/
def emitSimulator (funcName : String) (ft : FunctionType) (mod : HWModule)
    (consumers : List (List ExternalMemoryOp)) : EmitResult :=
  let header := simHeader funcName ft mod
  let ins := emitPortsFrom (emitInputPort mod consumers) ft.inputs 0
  match ins.2 with
  | some e => (header ++ ins.1, some e)
  | none =>
    let outs := emitPortsFrom (emitOutputPort mod ft.inputs.length) ft.results 0
    match outs.2 with
    | some e =>
      (header ++ ins.1 ++ [Stmt.raw "// - Output ports"] ++ outs.1, some e)
    | none =>
      (header ++ ins.1 ++ [Stmt.raw "// - Output ports"] ++ outs.1 ++ simFooter,
        none)

/-- The alias-emission loop underlying `emitIOTypes`: one `using` alias per
position, named from `base` and the position index, failing on the first
type the Port/Type Emitter cannot map. -/
def emitAliasesFrom (base : String) : List FType → Nat → EmitResult
  | [], _ => ([], none)
  | t :: ts, i =>
    match emitVerilatorType t with
    | .error m => ([], some (.emitFail m))
    | .ok tok =>
      let r := emitAliasesFrom base ts (i + 1)
      (Stmt.typeAlias (base ++ toString i) tok :: r.1, r.2)

/-- Modelled from the spec: `BaseWrapper::emitIOTypes` is not among the
sources.  Per §4.4(b) it emits one type alias per argument/result position
via the Port/Type Emitter (§4.1), one name per position reused consistently
downstream — the downstream source (lines 260, 276) reads them back as
`TArg<i>` / `TRes<i>` — and it propagates the emitter's failure. -/
def emitIOTypes (ft : FunctionType) : EmitResult :=
  let ins := emitAliasesFrom "TArg" ft.inputs 0
  match ins.2 with
  | some e => (ins.1, some e)
  | none =>
    let outs := emitAliasesFrom "TRes" ft.results 0
    (ins.1 ++ outs.1, outs.2)

/-- `HandshakeVerilatorWrapper::emitPreamble` (lines 53-76): fail unless the
kernel is a FIRRTL module; emit the I/O type aliases, the model and
simulation-interface aliases, the simulator class, and the driver alias,
halting at the first failing sub-step. -/
def emitPreamble (funcName : String) (kernel : Option HWModule)
    (ft : FunctionType) (consumers : List (List ExternalMemoryOp)) : EmitResult :=
  match kernel with
  | none =>
    ([], some (.emitFail
        "Expected a FIRRTL module of the handshake kernel that is to be wrapped"))
  | some mod =>
    let tio := emitIOTypes ft
    match tio.2 with
    | some e => (tio.1, some e)
    | none =>
      let modelAliases :=
        [Stmt.raw ("using TModel = V" ++ funcName ++ ";"),
         Stmt.raw ("using " ++ funcName ++
           "SimInterface = HandshakeSimInterface<TInput, TOutput, TModel>;")]
      let simT := emitSimulator funcName ft mod consumers
      match simT.2 with
      | some e => (tio.1 ++ modelAliases ++ simT.1, some e)
      | none =>
        (tio.1 ++ modelAliases ++ simT.1 ++
          [Stmt.raw ("using TSim = " ++ funcName ++ "Sim;")], none)

/-- Kinds of MLIR operations passed to `init`, reduced to the three cases the
dynamic casts of lines 31-38 distinguish. -/
inductive OpKind where
  | handshakeFunc
  | firrtlModule
  | otherOp
deriving DecidableEq, Repr

/-- Outcome of `init`: success, a diagnostic emitted on a concrete (non-null)
operation, or a method call through a null pointer (undefined behavior). -/
inductive InitOutcome where
  | success
  | diag (target : OpKind) (msg : String)
  | nullDeref
deriving DecidableEq, Repr

/-- `HandshakeVerilatorWrapper::init` (lines 24-42).  The null-pointer guard
calls `refOp->emitError()`, which dereferences `refOp` even when `refOp`
itself is the null one; and on a kernel that is not an `FModuleLike`, the
source calls `firrtlLikeOp->emitOpError()` on the null result of the failed
`dyn_cast` (line 37) rather than on `kernelOp`. -/
def init (refOp kernelOp : Option OpKind) : InitOutcome :=
  if ¬(refOp.isSome ∧ kernelOp.isSome) then
    match refOp with
    | none => .nullDeref
    | some r =>
      .diag r "Expected both a reference and a kernel operation for wrapping a handshake simulator."
  else
    match refOp, kernelOp with
    | some r, some k =>
      if r ≠ .handshakeFunc then
        .diag r "expected reference operation to be a handshake.func operation."
      else if k ≠ .firrtlModule then .nullDeref
      else .success
    | _, _ => .nullDeref

/-- The wrapper's stored operation fields `hsOp` and `firrtlOp`. -/
structure WrapperFields where
  hsOp : Option OpKind
  firrtlOp : Option OpKind
deriving DecidableEq, Repr

/-- `init` with its effect on the stored fields: the source assigns `hsOp`
and `firrtlOp` (lines 39-40) only after every check has passed. -/
def initWithState (st : WrapperFields) (refOp kernelOp : Option OpKind) :
    WrapperFields × InitOutcome :=
  match init refOp kernelOp with
  | .success => (⟨refOp, kernelOp⟩, .success)
  | o => (st, o)

/-- The §3 port-count invariant: the kernel module has
(argumentCount + 1 control) input ports followed by
(resultCount + 1 control) output ports. -/
def portCountInvariant (ft : FunctionType) (mod : HWModule) : Prop :=
  mod.ports.length = (ft.inputs.length + 1) + (ft.results.length + 1)

instance (ft : FunctionType) (mod : HWModule) :
    Decidable (portCountInvariant ft mod) := by
  unfold portCountInvariant; infer_instance

/-- Decidable success predicate for a port-emission loop: every element's
emission, called at its position index, returns no error. -/
def allPortsOk (f : FType → Nat → EmitResult) : List FType → Nat → Bool
  | [], _ => true
  | t :: ts, i => (f t i).2.isNone && allPortsOk f ts (i + 1)

/-- Recogniser for the input-control wiring statement. -/
def isInCtrlStmt : Stmt → Bool
  | .inCtrlWire _ => true
  | _ => false

/-- Recogniser for the output-control wiring statement. -/
def isOutCtrlStmt : Stmt → Bool
  | .outCtrlWire _ => true
  | _ => false

/-- Statements that are neither of the two control wirings. -/
def ctrlFree (s : Stmt) : Bool := !isInCtrlStmt s && !isOutCtrlStmt s

/-- Recogniser for memref types (`t.dyn_cast<MemRefType>()` succeeding). -/
def isMemref : FType → Bool
  | .memref _ _ => true
  | _ => false

theorem emitLoadPortsFrom_ok {elem : FType} {w : Nat} {etok atok : String}
    (hn : emitVerilatorType elem = .ok etok)
    (hw : emitVerilatorTypeFromWidth w = .ok atok) (name : String) :
    ∀ (n i : Nat), emitLoadPortsFrom name elem w i n =
      ((List.range' i n).map (mkLoadStmt name etok atok), none) := by
  intro n
  induction n with
  | zero => intro i; rfl
  | succ n ih =>
    intro i
    simp [emitLoadPortsFrom, hn, hw, ih (i + 1), List.range'_succ]

theorem emitStorePortsFrom_ok {elem : FType} {w : Nat} {etok atok : String}
    (hn : emitVerilatorType elem = .ok etok)
    (hw : emitVerilatorTypeFromWidth w = .ok atok) (name : String) :
    ∀ (n i : Nat), emitStorePortsFrom name elem w i n =
      ((List.range' i n).map (mkStoreStmt name etok atok), none) := by
  intro n
  induction n with
  | zero => intro i; rfl
  | succ n ih =>
    intro i
    simp [emitStorePortsFrom, hn, hw, ih (i + 1), List.range'_succ]

/-- Trace of a successful `emitExtMemPort` for a memory argument with a
single consumer reporting `L` loads and `S` stores: the memory-interface
declaration, then the `L` load registrations in index order, then the `S`
store registrations in index order. -/
theorem emitExtMemPort_success_trace (mod : HWModule) (L S n idx : Nat)
    (elem : FType) {els : List (String × FIRRTLType)} {w : Nat}
    {etok atok : String}
    (h1 : castBundle (getPortType mod idx) = some els)
    (h2 : resolveAddressWidth els = .ok w)
    (h3 : w ≠ 0)
    (h4 : emitVerilatorType elem = .ok etok)
    (h5 : emitVerilatorTypeFromWidth w = .ok atok) :
    emitExtMemPort mod [⟨L, S⟩] [n] elem idx =
      (Stmt.memInterfaceDecl (getInputName mod idx) etok atok n ::
        ((List.range L).map (mkLoadStmt (getInputName mod idx) etok atok) ++
         (List.range S).map (mkStoreStmt (getInputName mod idx) etok atok)),
        none) := by
  simp [emitExtMemPort, h1, h2, h3, h4, h5,
    emitLoadPortsFrom_ok h4 h5, emitStorePortsFrom_ok h4 h5,
    List.range_eq_range']

theorem emitPortsFrom_ok (f : FType → Nat → EmitResult) :
    ∀ (ts : List FType) (i : Nat), allPortsOk f ts i = true →
      emitPortsFrom f ts i =
        (((List.enumFrom i ts).map (fun p => (f p.2 p.1).1)).flatten, none) := by
  intro ts
  induction ts with
  | nil => intro i _; rfl
  | cons t ts ih =>
    intro i h
    simp only [allPortsOk, Bool.and_eq_true, Option.isNone_iff_eq_none] at h
    obtain ⟨h1, h2⟩ := h
    simp [emitPortsFrom, h1, ih (i + 1) h2, List.enumFrom_cons]

theorem allPortsOk_output (mod : HWModule) (nA : Nat) :
    ∀ (ts : List FType) (i : Nat), allPortsOk (emitOutputPort mod nA) ts i = true := by
  intro ts
  induction ts with
  | nil => intro i; rfl
  | cons t ts ih => intro i; simp [allPortsOk, emitOutputPort, ih (i + 1)]

/-- Trace of a successful `emitSimulator` run: the fixed header (with the
two control wirings), the argument registrations in argument order, the
result registrations in result order, the footer.  The output is a pure
function of the inputs, so equal inputs yield equal traces. -/
theorem emitSimulator_success (fn : String) (ft : FunctionType)
    (mod : HWModule) (cons : List (List ExternalMemoryOp))
    (h : allPortsOk (emitInputPort mod cons) ft.inputs 0 = true) :
    emitSimulator fn ft mod cons =
      (simHeader fn ft mod ++
        ((List.enumFrom 0 ft.inputs).map
          (fun p => (emitInputPort mod cons p.2 p.1).1)).flatten ++
        [Stmt.raw "// - Output ports"] ++
        ((List.enumFrom 0 ft.results).map
          (fun p => (emitOutputPort mod ft.inputs.length p.2 p.1).1)).flatten ++
        simFooter, none) := by
  have hin := emitPortsFrom_ok (emitInputPort mod cons) ft.inputs 0 h
  have hout := emitPortsFrom_ok (emitOutputPort mod ft.inputs.length) ft.results 0
    (allPortsOk_output mod ft.inputs.length ft.results 0)
  simp [emitSimulator, hin, hout]

theorem loadPorts_ctrlFree (name : String) (elem : FType) (w : Nat) :
    ∀ (n i : Nat) (s : Stmt), s ∈ (emitLoadPortsFrom name elem w i n).1 →
      ctrlFree s = true := by
  intro n
  induction n with
  | zero => intro i s hs; simp [emitLoadPortsFrom] at hs
  | succ n ih =>
    intro i s hs
    simp only [emitLoadPortsFrom] at hs
    split at hs
    · simp at hs
    · split at hs
      · simp at hs
      · simp only [List.mem_cons] at hs
        rcases hs with h | h
        · subst h; rfl
        · exact ih (i + 1) s h

theorem storePorts_ctrlFree (name : String) (elem : FType) (w : Nat) :
    ∀ (n i : Nat) (s : Stmt), s ∈ (emitStorePortsFrom name elem w i n).1 →
      ctrlFree s = true := by
  intro n
  induction n with
  | zero => intro i s hs; simp [emitStorePortsFrom] at hs
  | succ n ih =>
    intro i s hs
    simp only [emitStorePortsFrom] at hs
    split at hs
    · simp at hs
    · split at hs
      · simp at hs
      · simp only [List.mem_cons] at hs
        rcases hs with h | h
        · subst h; rfl
        · exact ih (i + 1) s h

theorem extMemPort_ctrlFree (mod : HWModule) (users : List ExternalMemoryOp)
    (shape : List Nat) (elem : FType) (idx : Nat) :
    ∀ s ∈ (emitExtMemPort mod users shape elem idx).1, ctrlFree s = true := by
  intro s hs
  simp only [emitExtMemPort] at hs
  split at hs
  · simp at hs
  · split at hs
    · simp at hs
    · split at hs
      · simp at hs
      · split at hs
        · simp at hs
        · split at hs
          · simp at hs
          · split at hs
            · simp at hs
            · split at hs
              · simp only [List.mem_cons] at hs
                rcases hs with h | h
                · subst h; rfl
                · simp at h
              · split at hs
                · simp only [List.mem_cons] at hs
                  rcases hs with h | h
                  · subst h; rfl
                  · exact loadPorts_ctrlFree _ _ _ _ _ s h
                · simp only [List.mem_cons, List.mem_append] at hs
                  rcases hs with h | h | h
                  · subst h; rfl
                  · exact loadPorts_ctrlFree _ _ _ _ _ s h
                  · exact storePorts_ctrlFree _ _ _ _ _ s h

theorem inputPort_ctrlFree (mod : HWModule) (cons : List (List ExternalMemoryOp))
    (t : FType) (idx : Nat) :
    ∀ s ∈ (emitInputPort mod cons t idx).1, ctrlFree s = true := by
  intro s hs
  match t with
  | .memref shape elem => exact extMemPort_ctrlFree mod _ shape elem idx s hs
  | .int w =>
    simp only [emitInputPort, List.mem_cons] at hs
    rcases hs with h | h | h
    · subst h; rfl
    · subst h; rfl
    · simp at h
  | .other d =>
    simp only [emitInputPort, List.mem_cons] at hs
    rcases hs with h | h | h
    · subst h; rfl
    · subst h; rfl
    · simp at h

theorem outputPort_ctrlFree (mod : HWModule) (nA : Nat) (t : FType) (idx : Nat) :
    ∀ s ∈ (emitOutputPort mod nA t idx).1, ctrlFree s = true := by
  intro s hs
  simp only [emitOutputPort, List.mem_cons] at hs
  rcases hs with h | h | h
  · subst h; rfl
  · subst h; rfl
  · simp at h

/-! ### Concrete fixtures used by witnesses and counterexamples -/

/-- Port bundle of a memory port with one load group: data, address (3-bit)
and done sub-bundles. -/
def memPortBundle : FIRRTLType :=
  .bundle [("ldData0", .bundle [("data", .ground 32)]),
           ("ldAddr0", .bundle [("data", .ground 3)]),
           ("ldDone0", .bundle [])]

/-- Kernel module for a single-memory-argument function: the memory port,
the input control port, the output control port. -/
def memMod : HWModule :=
  ⟨[⟨"in0", memPortBundle⟩, ⟨"inCtrl", .bundle []⟩, ⟨"outCtrl", .bundle []⟩]⟩

/-- Kernel module of spec §8 Scenario A: one 32-bit data input, input
control, one 32-bit data output, output control. -/
def scalarMod : HWModule :=
  ⟨[⟨"in0", .bundle [("data", .ground 32)]⟩, ⟨"inCtrl", .bundle []⟩,
    ⟨"out0", .bundle [("data", .ground 32)]⟩, ⟨"outCtrl", .bundle []⟩]⟩

/-- Function type of spec §8 Scenario A: `(i32) -> i32`. -/
def scalarFt : FunctionType := ⟨[.int 32], [.int 32]⟩

/-- A function type with a two-dimensional memory argument. -/
def badShapeFt : FunctionType := ⟨[.memref [2, 3] (.int 32)], []⟩

/-- A memory-port bundle with two address-convention signals of different
data widths. -/
def twoAddrBundle : List (String × FIRRTLType) :=
  [("ldAddr0", .bundle [("data", .ground 5)]),
   ("stAddr0", .bundle [("data", .ground 7)])]

/-- A function type with a scalar argument followed by a two-dimensional
memory argument. -/
def mixedFt : FunctionType := ⟨[.int 32, .memref [2, 3] (.int 32)], []⟩

/-! ### Claims -/

/-- C9: every memory-typed argument accepted for expansion must have an
exactly one-dimensional shape; for any memory argument whose shape rank
differs from 1, `emitExtMemPort` aborts via the
`assert(shape.size() == 1)` hard stop before emitting anything. -/
theorem c9_unidimensional_assert (mod : HWModule)
    (users : List ExternalMemoryOp) (shape : List Nat) (elem : FType)
    (idx : Nat) (h : shape.length ≠ 1) :
    emitExtMemPort mod users shape elem idx =
      ([], some (.assertFail "Only support unidimensional memories")) := by
  simp [emitExtMemPort, h]

theorem c9_witness :
    ([2, 3] : List Nat).length ≠ 1 ∧
    emitExtMemPort memMod [] [2, 3] (.int 32) 0 =
      ([], some (.assertFail "Only support unidimensional memories")) :=
  ⟨by decide, c9_unidimensional_assert memMod [] [2, 3] (.int 32) 0 (by decide)⟩

/-- C5: under the preconditions that the address width resolves to a
nonzero value and both type emissions succeed, expansion of a memory
argument stops with the consumer-cardinality assertion exactly when the
argument's qualifying consumer count differs from one; with exactly one
consuming external-memory construct it proceeds (no such failure). -/
theorem c5_consumer_cardinality (mod : HWModule)
    (users : List ExternalMemoryOp) (n idx : Nat) (elem : FType)
    {els : List (String × FIRRTLType)} {w : Nat} {etok atok : String}
    (h1 : castBundle (getPortType mod idx) = some els)
    (h2 : resolveAddressWidth els = .ok w)
    (h3 : w ≠ 0)
    (h4 : emitVerilatorType elem = .ok etok)
    (h5 : emitVerilatorTypeFromWidth w = .ok atok) :
    (emitExtMemPort mod users [n] elem idx).2 =
      some (.assertFail "expected exactly 1 user of a memref input argument")
      ↔ users.length ≠ 1 := by
  constructor
  · intro hfail hlen
    obtain ⟨u, rfl⟩ := List.length_eq_one.mp hlen
    rcases u with ⟨L, S⟩
    rw [emitExtMemPort_success_trace mod L S n idx elem h1 h2 h3 h4 h5] at hfail
    simp at hfail
  · intro hlen
    simp [emitExtMemPort, h1, h2, h3, h4, h5, hlen]

theorem c5_witness :
    (([] : List ExternalMemoryOp).length ≠ 1) ∧
    (emitExtMemPort memMod [] [8] (.int 32) 0).2 =
      some (.assertFail "expected exactly 1 user of a memref input argument") :=
  ⟨by decide,
    (c5_consumer_cardinality memMod [] 8 0 (.int 32) rfl rfl (by decide) rfl
      rfl).mpr (by decide)⟩

/-- C3: for a memory argument whose single consumer reports `L` loads and
`S` stores, and whose address width and type tokens resolve, expansion
emits the memory-interface declaration followed by exactly `L` load-port
registrations in index order `0..L-1` — each over the signal triple
`<name>_ldData<i>`, `<name>_ldAddr<i>`, `<name>_ldDone<i>` — followed by
exactly `S` store-port registrations in index order `0..S-1` over
`<name>_stData<i>`, `<name>_stAddr<i>`, `<name>_stDone<i>`. -/
theorem c3_load_store_expansion (mod : HWModule) (L S n idx : Nat)
    (elem : FType) {els : List (String × FIRRTLType)} {w : Nat}
    {etok atok : String}
    (h1 : castBundle (getPortType mod idx) = some els)
    (h2 : resolveAddressWidth els = .ok w)
    (h3 : w ≠ 0)
    (h4 : emitVerilatorType elem = .ok etok)
    (h5 : emitVerilatorTypeFromWidth w = .ok atok) :
    emitExtMemPort mod [⟨L, S⟩] [n] elem idx =
      (Stmt.memInterfaceDecl (getInputName mod idx) etok atok n ::
        ((List.range L).map (fun i =>
          Stmt.loadPortReg (getInputName mod idx ++ "_ldData" ++ toString i)
            (getInputName mod idx ++ "_ldAddr" ++ toString i)
            (getInputName mod idx ++ "_ldDone" ++ toString i) etok atok) ++
         (List.range S).map (fun i =>
          Stmt.storePortReg (getInputName mod idx ++ "_stData" ++ toString i)
            (getInputName mod idx ++ "_stAddr" ++ toString i)
            (getInputName mod idx ++ "_stDone" ++ toString i) etok atok)),
        none) := by
  rw [emitExtMemPort_success_trace mod L S n idx elem h1 h2 h3 h4 h5]
  rfl

theorem c3_witness :
    emitExtMemPort memMod [⟨2, 1⟩] [8] (.int 32) 0 =
      (Stmt.memInterfaceDecl "in0" "uint32_t" "uint3_t" 8 ::
        ([Stmt.loadPortReg "in0_ldData0" "in0_ldAddr0" "in0_ldDone0"
            "uint32_t" "uint3_t",
          Stmt.loadPortReg "in0_ldData1" "in0_ldAddr1" "in0_ldDone1"
            "uint32_t" "uint3_t"] ++
         [Stmt.storePortReg "in0_stData0" "in0_stAddr0" "in0_stDone0"
            "uint32_t" "uint3_t"]), none) := by
  have h := c3_load_store_expansion memMod 2 1 8 0 (.int 32) rfl rfl
    (by decide) rfl rfl
  exact h

/-- C4: a memory argument whose single consumer reports zero loads and zero
stores still emits the memory-interface declaration — parameterized by the
element-type token, the address-width token and size = the memory's length —
and zero load-port and zero store-port registrations. -/
theorem c4_zero_ports (mod : HWModule) (n idx : Nat) (elem : FType)
    {els : List (String × FIRRTLType)} {w : Nat} {etok atok : String}
    (h1 : castBundle (getPortType mod idx) = some els)
    (h2 : resolveAddressWidth els = .ok w)
    (h3 : w ≠ 0)
    (h4 : emitVerilatorType elem = .ok etok)
    (h5 : emitVerilatorTypeFromWidth w = .ok atok) :
    emitExtMemPort mod [⟨0, 0⟩] [n] elem idx =
      ([Stmt.memInterfaceDecl (getInputName mod idx) etok atok n], none) := by
  have h := emitExtMemPort_success_trace mod 0 0 n idx elem h1 h2 h3 h4 h5
  simpa using h

theorem c4_witness :
    emitExtMemPort memMod [⟨0, 0⟩] [8] (.int 32) 0 =
      ([Stmt.memInterfaceDecl "in0" "uint32_t" "uint3_t" 8], none) :=
  c4_zero_ports memMod 8 0 (.int 32) rfl rfl (by decide) rfl rfl

/-- The data width behind one address-convention signal: the bundle cast
followed by the `"data"`-element lookup. -/
def addrSigWidth (e : String × FIRRTLType) : Option Nat :=
  (castBundle e.2).bind getBundleDataWidth

theorem resolveAddrGo_eq (els : List (String × FIRRTLType))
    (h : ∀ e ∈ els, isAddrSig e.1 = true → (addrSigWidth e).isSome = true) :
    ∀ acc : Nat, resolveAddrGo els acc =
      .ok (((els.filter (fun e => isAddrSig e.1)).map
        (fun e => (addrSigWidth e).getD 0)).getLastD acc) := by
  induction els with
  | nil => intro acc; rfl
  | cons e els ih =>
    intro acc
    rcases e with ⟨nm, t⟩
    by_cases ha : isAddrSig nm = true
    · have hw := h ⟨nm, t⟩ (List.mem_cons_self _ _) ha
      rcases hcb : castBundle t with _ | inner
      · rw [addrSigWidth] at hw; simp [hcb] at hw
      · rcases hgw : getBundleDataWidth inner with _ | w
        · rw [addrSigWidth] at hw; simp [hcb, hgw] at hw
        · have ih' := ih (fun x hx hax => h x (List.mem_cons_of_mem _ hx) hax) w
          have hfw : (addrSigWidth (nm, t)).getD 0 = w := by
            simp [addrSigWidth, hcb, hgw]
          simp only [resolveAddrGo, ha, if_true, hcb, hgw, ih',
            List.filter_cons, List.map_cons, hfw, List.getLastD_cons,
            decide_eq_true_eq]
    · have ih' := ih (fun x hx hax => h x (List.mem_cons_of_mem _ hx) hax) acc
      simp [resolveAddrGo, ha, ih']

/-- C2 counterexample: on a bundle whose first matching signal (`ldAddr0`)
has data width 5 and whose last matching signal (`stAddr0`) has data width
7, the code returns 7, not the first match's 5 — the scan loop overwrites
`addrWidth` at every match. -/
theorem c2_counterexample :
    resolveAddressWidth twoAddrBundle = .ok 7 ∧
    resolveAddressWidthSpec twoAddrBundle = some 5 ∧ (7 : Nat) ≠ 5 :=
  ⟨rfl, rfl, by decide⟩

/-- C2 (amended): when resolving the address width of a memory-port bundle,
the generator returns the data bit width of the LAST signal in the bundle
whose name matches the load/store-address naming convention (prefix
`ldAddr` or `stAddr`), and fails — via the `addrWidth > 0` assertion in
`emitExtMemPort` — if no such signal is present. -/
theorem c2_last_addr_width (els : List (String × FIRRTLType))
    (h : ∀ e ∈ els, isAddrSig e.1 = true → (addrSigWidth e).isSome = true) :
    resolveAddressWidth els =
      .ok (((els.filter (fun e => isAddrSig e.1)).map
        (fun e => (addrSigWidth e).getD 0)).getLastD 0) ∧
    (∀ (mod : HWModule) (users : List ExternalMemoryOp) (n : Nat)
        (elem : FType) (idx : Nat),
      castBundle (getPortType mod idx) = some els →
      els.filter (fun e => isAddrSig e.1) = [] →
      (emitExtMemPort mod users [n] elem idx).2 =
        some (.assertFail "Found no address signal in memory bundle!")) := by
  have hgo := resolveAddrGo_eq els h 0
  refine ⟨hgo, ?_⟩
  intro mod users n elem idx hcast hnone
  have hz : resolveAddressWidth els = .ok 0 := by
    rw [resolveAddressWidth, hgo, hnone]; rfl
  simp [emitExtMemPort, hcast, hz]

theorem c2_witness :
    resolveAddressWidth twoAddrBundle = .ok 7 ∧
    (emitExtMemPort memMod [] [8] (.other "noaddr") 1).2 =
      some (.assertFail "Found no address signal in memory bundle!") := by
  have h1 := (c2_last_addr_width twoAddrBundle (by decide)).1
  have h2 := (c2_last_addr_width [] (by decide)).2 memMod [] 8
    (.other "noaddr") 1 rfl rfl
  exact ⟨h1, h2⟩

theorem filter_ctrl_nil {l : List Stmt} (h : ∀ s ∈ l, ctrlFree s = true) :
    l.filter isInCtrlStmt = [] ∧ l.filter isOutCtrlStmt = [] := by
  constructor
  · rw [List.filter_eq_nil_iff]
    intro s hs
    have hc := h s hs
    simp [ctrlFree] at hc
    simp [hc.1]
  · rw [List.filter_eq_nil_iff]
    intro s hs
    have hc := h s hs
    simp [ctrlFree] at hc
    simp [hc.2]

theorem flatten_ports_ctrlFree (f : FType → Nat → EmitResult)
    (hf : ∀ (t : FType) (i : Nat), ∀ s ∈ (f t i).1, ctrlFree s = true)
    (ts : List FType) (i0 : Nat) :
    ∀ s ∈ ((List.enumFrom i0 ts).map (fun p => (f p.2 p.1).1)).flatten,
      ctrlFree s = true := by
  intro s hs
  simp only [List.mem_flatten, List.mem_map] at hs
  obtain ⟨l, ⟨p, hp, hlp⟩, hsl⟩ := hs
  subst hlp
  exact hf p.2 p.1 s hsl

/-- C1 counterexample: a (FunctionSignature, HardwareModule) pair that
satisfies the port-count invariant (1 argument + 1 control input, 0 results
+ 1 control output, 3 ports) but whose memory argument has a
two-dimensional shape, so `emitSimulator` does not succeed. -/
theorem c1_counterexample :
    portCountInvariant badShapeFt memMod ∧
    (emitSimulator "top" badShapeFt memMod [[⟨1, 0⟩]]).2 ≠ none := by
  exact ⟨by decide, by decide⟩

/-- C1 (amended): for every (FunctionSignature, HardwareModule) pair
satisfying the port-count invariant, provided that every argument's port
emission succeeds (every memory argument's expansion in particular —
scalar ports cannot fail), `emitSimulator` succeeds and its output contains
exactly one control-input wiring, taken from the port at
index = argumentCount, and exactly one control-output wiring, taken from
the port at index = resultCount + argumentCount + 1, regardless of the
number of arguments and results, including zero of either. -/
theorem c1_control_wiring (fn : String) (ft : FunctionType) (mod : HWModule)
    (cons : List (List ExternalMemoryOp))
    (_hinv : portCountInvariant ft mod)
    (h : allPortsOk (emitInputPort mod cons) ft.inputs 0 = true) :
    (emitSimulator fn ft mod cons).2 = none ∧
    (emitSimulator fn ft mod cons).1.filter isInCtrlStmt =
      [Stmt.inCtrlWire (getPortName mod ft.inputs.length)] ∧
    (emitSimulator fn ft mod cons).1.filter isOutCtrlStmt =
      [Stmt.outCtrlWire
        (getPortName mod (ft.results.length + ft.inputs.length + 1))] := by
  have h1 := filter_ctrl_nil
    (flatten_ports_ctrlFree _ (inputPort_ctrlFree mod cons) ft.inputs 0)
  have h2 := filter_ctrl_nil
    (flatten_ports_ctrlFree _ (outputPort_ctrlFree mod ft.inputs.length)
      ft.results 0)
  rw [emitSimulator_success fn ft mod cons h]
  refine ⟨rfl, ?_, ?_⟩
  · simp [List.filter_append, h1.1, h2.1, simHeader, simFooter, isInCtrlStmt,
      getInputName, getResName, inCtrlIdx]
  · simp [List.filter_append, h1.2, h2.2, simHeader, simFooter, isOutCtrlStmt,
      getInputName, getResName, inCtrlIdx]

theorem c1_witness :
    portCountInvariant scalarFt scalarMod ∧
    (emitSimulator "fn" scalarFt scalarMod []).2 = none ∧
    (emitSimulator "fn" scalarFt scalarMod []).1.filter isInCtrlStmt =
      [Stmt.inCtrlWire "inCtrl"] ∧
    (emitSimulator "fn" scalarFt scalarMod []).1.filter isOutCtrlStmt =
      [Stmt.outCtrlWire "outCtrl"] := by
  have h := c1_control_wiring "fn" scalarFt scalarMod [] (by decide) (by decide)
  exact ⟨by decide, h.1, h.2.1, h.2.2⟩

/-- C6: generation is deterministic and ordered — the successful trace of
`emitSimulator` is a pure function of (funcName, FunctionType, HWModule,
consumer lists), equal to the fixed header followed by the per-argument
traces in argument order 0, 1, ... and the per-result traces in result
order 0, 1, ...; two calls on identical inputs therefore produce identical
output. -/
theorem c6_deterministic_trace (fn : String) (ft : FunctionType)
    (mod : HWModule) (cons : List (List ExternalMemoryOp))
    (h : allPortsOk (emitInputPort mod cons) ft.inputs 0 = true) :
    emitSimulator fn ft mod cons =
      (simHeader fn ft mod ++
        ((List.enumFrom 0 ft.inputs).map
          (fun p => (emitInputPort mod cons p.2 p.1).1)).flatten ++
        [Stmt.raw "// - Output ports"] ++
        ((List.enumFrom 0 ft.results).map
          (fun p => (emitOutputPort mod ft.inputs.length p.2 p.1).1)).flatten ++
        simFooter, none) :=
  emitSimulator_success fn ft mod cons h

theorem c6_witness :
    emitSimulator "top" scalarFt scalarMod [] =
      (simHeader "top" scalarFt scalarMod ++
        ((List.enumFrom 0 scalarFt.inputs).map
          (fun p => (emitInputPort scalarMod [] p.2 p.1).1)).flatten ++
        [Stmt.raw "// - Output ports"] ++
        ((List.enumFrom 0 scalarFt.results).map
          (fun p =>
            (emitOutputPort scalarMod scalarFt.inputs.length p.2 p.1).1)).flatten ++
        simFooter, none) :=
  c6_deterministic_trace "top" scalarFt scalarMod [] (by decide)

theorem emitAliasesFrom_length (base : String) :
    ∀ (ts : List FType) (i : Nat), (emitAliasesFrom base ts i).2 = none →
      (emitAliasesFrom base ts i).1.length = ts.length := by
  intro ts
  induction ts with
  | nil => intro i _; rfl
  | cons t ts ih =>
    intro i h
    rcases hv : emitVerilatorType t with m | tok
    · simp [emitAliasesFrom, hv] at h
    · have h' : (emitAliasesFrom base ts (i + 1)).2 = none := by
        simpa [emitAliasesFrom, hv] using h
      simp [emitAliasesFrom, hv, ih (i + 1) h']

theorem emitAliasesFrom_get (base : String) :
    ∀ (ts : List FType) (i j : Nat) (t : FType), ts[j]? = some t →
      (emitAliasesFrom base ts i).2 = none →
      ∃ tok, (emitAliasesFrom base ts i).1[j]? =
        some (Stmt.typeAlias (base ++ toString (i + j)) tok) := by
  intro ts
  induction ts with
  | nil => intro i j t hj _; simp at hj
  | cons t0 ts ih =>
    intro i j t hj h
    rcases hv : emitVerilatorType t0 with m | tok
    · simp [emitAliasesFrom, hv] at h
    · have h' : (emitAliasesFrom base ts (i + 1)).2 = none := by
        simpa [emitAliasesFrom, hv] using h
      cases j with
      | zero =>
        refine ⟨tok, ?_⟩
        simp [emitAliasesFrom, hv]
      | succ j =>
        have hj' : ts[j]? = some t := by simpa using hj
        obtain ⟨tok', htok⟩ := ih (i + 1) j t hj' h'
        refine ⟨tok', ?_⟩
        have harith : i + (j + 1) = (i + 1) + j := by omega
        rw [harith]
        simp [emitAliasesFrom, hv, htok]

theorem emitIOTypes_success (ft : FunctionType)
    (h : (emitIOTypes ft).2 = none) :
    (emitAliasesFrom "TArg" ft.inputs 0).2 = none ∧
    (emitAliasesFrom "TRes" ft.results 0).2 = none ∧
    (emitIOTypes ft).1 =
      (emitAliasesFrom "TArg" ft.inputs 0).1 ++
        (emitAliasesFrom "TRes" ft.results 0).1 := by
  rcases hins : (emitAliasesFrom "TArg" ft.inputs 0).2 with _ | e
  · refine ⟨rfl, ?_, ?_⟩
    · simpa [emitIOTypes, hins] using h
    · simp [emitIOTypes, hins]
  · exfalso
    simp [emitIOTypes, hins] at h

/-- C7: for every non-memory argument at position `idx`, the emitted scalar
input-port registration uses exactly the alias `TArg<idx>` declared for
that position by the I/O-types step, and is preceded by the static
type-compatibility assertion between that alias and the hardware model's
data field; symmetrically every result at position `ridx` uses `TRes<ridx>`
with its own preceding assertion. -/
theorem c7_alias_consistency (mod : HWModule)
    (cons : List (List ExternalMemoryOp)) (ft : FunctionType) (t : FType)
    (idx : Nat)
    (hscalar : isMemref t = false)
    (hin : ft.inputs[idx]? = some t)
    (hio : (emitIOTypes ft).2 = none) :
    emitInputPort mod cons t idx =
      ([Stmt.typeAssert ("TArg" ++ toString idx)
          ("dut->" ++ getInputName mod idx ++ "_data"),
        Stmt.inputPortReg ("TArg" ++ toString idx) (getInputName mod idx)],
        none) ∧
    (∃ tok, (emitIOTypes ft).1[idx]? =
      some (Stmt.typeAlias ("TArg" ++ toString idx) tok)) ∧
    (∀ (u : FType) (ridx : Nat), ft.results[ridx]? = some u →
      emitOutputPort mod ft.inputs.length u ridx =
        ([Stmt.typeAssert ("TRes" ++ toString ridx)
            ("dut->" ++ getResName mod ft.inputs.length ridx ++ "_data"),
          Stmt.outputPortReg ("TRes" ++ toString ridx)
            (getResName mod ft.inputs.length ridx)], none) ∧
      ∃ tok, (emitIOTypes ft).1[ft.inputs.length + ridx]? =
        some (Stmt.typeAlias ("TRes" ++ toString ridx) tok)) := by
  obtain ⟨hins, houts, htr⟩ := emitIOTypes_success ft hio
  have hlen := emitAliasesFrom_length "TArg" ft.inputs 0 hins
  have hidxlt : idx < ft.inputs.length := by
    by_contra hge
    rw [List.getElem?_eq_none (by omega)] at hin
    exact Option.noConfusion hin
  constructor
  · match t, hscalar with
    | .int w, _ => rfl
    | .other d, _ => rfl
  constructor
  · obtain ⟨tok, htok⟩ := emitAliasesFrom_get "TArg" ft.inputs 0 idx t hin hins
    refine ⟨tok, ?_⟩
    rw [htr, List.getElem?_append_left (by omega)]
    simpa using htok
  · intro u ridx hres
    refine ⟨rfl, ?_⟩
    obtain ⟨tok, htok⟩ :=
      emitAliasesFrom_get "TRes" ft.results 0 ridx u hres houts
    refine ⟨tok, ?_⟩
    rw [htr, List.getElem?_append_right (by omega)]
    have : ft.inputs.length + ridx - (emitAliasesFrom "TArg" ft.inputs 0).1.length
        = ridx := by omega
    rw [this]
    simpa using htok

theorem c7_witness :
    emitInputPort scalarMod [] (.int 32) 0 =
      ([Stmt.typeAssert "TArg0" "dut->in0_data",
        Stmt.inputPortReg "TArg0" "in0"], none) ∧
    (∃ tok, (emitIOTypes scalarFt).1[0]? =
      some (Stmt.typeAlias "TArg0" tok)) ∧
    emitOutputPort scalarMod 1 (.int 32) 0 =
      ([Stmt.typeAssert "TRes0" "dut->out0_data",
        Stmt.outputPortReg "TRes0" "out0"], none) := by
  have h := c7_alias_consistency scalarMod [] scalarFt (.int 32) 0 rfl rfl rfl
  have h3 := h.2.2 (.int 32) 0 rfl
  exact ⟨h.1, h.2.1, h3.1⟩

theorem emitPortsFrom_fail (f : FType → Nat → EmitResult) :
    ∀ (ts : List FType) (i j : Nat) (t : FType) (tj : List Stmt) (e : EmitErr),
      ts[j]? = some t → f t (i + j) = (tj, some e) →
      allPortsOk f (ts.take j) i = true →
      emitPortsFrom f ts i =
        (((List.enumFrom i (ts.take j)).map
          (fun p => (f p.2 p.1).1)).flatten ++ tj, some e) := by
  intro ts
  induction ts with
  | nil => intro i j t tj e hj _ _; simp at hj
  | cons t0 ts ih =>
    intro i j t tj e hj hfail hok
    cases j with
    | zero =>
      have ht : t = t0 := by simpa using hj.symm
      subst ht
      simp only [Nat.add_zero] at hfail
      simp [emitPortsFrom, hfail]
    | succ j =>
      simp only [List.take_succ_cons, allPortsOk, Bool.and_eq_true,
        Option.isNone_iff_eq_none] at hok
      obtain ⟨h0, hok'⟩ := hok
      have hj' : ts[j]? = some t := by simpa using hj
      have hfail' : f t ((i + 1) + j) = (tj, some e) := by
        rw [show (i + 1) + j = i + (j + 1) by omega]
        exact hfail
      have := ih (i + 1) j t tj e hj' hfail' hok'
      simp [emitPortsFrom, h0, this, List.take_succ_cons, List.enumFrom_cons]

/-- C8: generation halts at the first failing sub-step and propagates that
failure unchanged.  If the port emission of argument `j` fails with error
`e` while all earlier arguments succeeded, then `emitSimulator` emits only
the header, the traces of arguments before `j` and the failing step's
partial trace — no later argument, no result port, no footer — and reports
`some e`; `emitPreamble` (whose I/O-types step succeeded) forwards the same
`e`.  And whenever the I/O-types step itself fails, `emitPreamble` stops
there with that step's error, emitting nothing further. -/
theorem c8_first_failure (fn : String) (ft : FunctionType) (mod : HWModule)
    (cons : List (List ExternalMemoryOp)) (j : Nat) (t : FType)
    (tj : List Stmt) (e : EmitErr)
    (hj : ft.inputs[j]? = some t)
    (hfail : emitInputPort mod cons t j = (tj, some e))
    (hok : allPortsOk (emitInputPort mod cons) (ft.inputs.take j) 0 = true)
    (hio : (emitIOTypes ft).2 = none) :
    emitSimulator fn ft mod cons =
      (simHeader fn ft mod ++
        (((List.enumFrom 0 (ft.inputs.take j)).map
          (fun p => (emitInputPort mod cons p.2 p.1).1)).flatten ++ tj),
        some e) ∧
    (emitPreamble fn (some mod) ft cons).2 = some e ∧
    (∀ (ft' : FunctionType) (tr : List Stmt) (e' : EmitErr),
      emitIOTypes ft' = (tr, some e') →
      emitPreamble fn (some mod) ft' cons = (tr, some e')) := by
  have hfail0 : emitInputPort mod cons t (0 + j) = (tj, some e) := by
    simpa using hfail
  have hports := emitPortsFrom_fail (emitInputPort mod cons) ft.inputs 0 j t
    tj e hj hfail0 hok
  have hsim : emitSimulator fn ft mod cons =
      (simHeader fn ft mod ++
        (((List.enumFrom 0 (ft.inputs.take j)).map
          (fun p => (emitInputPort mod cons p.2 p.1).1)).flatten ++ tj),
        some e) := by
    simp [emitSimulator, hports]
  refine ⟨hsim, ?_, ?_⟩
  · simp [emitPreamble, hio, hsim]
  · intro ft' tr e' hio'
    simp [emitPreamble, hio']

theorem c8_witness :
    emitSimulator "fn" mixedFt memMod [[⟨1, 0⟩], []] =
      (simHeader "fn" mixedFt memMod ++
        (((List.enumFrom 0 (mixedFt.inputs.take 1)).map
          (fun p => (emitInputPort memMod [[⟨1, 0⟩], []] p.2 p.1).1)).flatten ++
          []),
        some (.assertFail "Only support unidimensional memories")) ∧
    (emitPreamble "fn" (some memMod) mixedFt [[⟨1, 0⟩], []]).2 =
      some (.assertFail "Only support unidimensional memories") ∧
    emitPreamble "fn" (some memMod) ⟨[.other "f32"], []⟩ [[⟨1, 0⟩], []] =
      ([], some (.emitFail "unsupported type")) := by
  have h := c8_first_failure "fn" mixedFt memMod [[⟨1, 0⟩], []] 1
    (.memref [2, 3] (.int 32)) [] (.assertFail "Only support unidimensional memories")
    rfl rfl (by decide) rfl
  exact ⟨h.1, h.2.1, h.2.2 ⟨[.other "f32"], []⟩ [] (.emitFail "unsupported type") rfl⟩

/-- C10: at the failing inputs the source does not report a diagnostic on a
valid operation: with a handshake.func reference and a kernel that is not a
FIRRTL FModuleLike it calls `emitOpError` through the null result of the
failed `dyn_cast` (line 37), and with a null reference it calls `emitError`
through the null `refOp` (line 27) — undefined behavior in both cases.  On
the success path (both present, handshake.func + FModuleLike) it succeeds,
and a diagnosed failure leaves the stored operation fields unmodified. -/
theorem c10_init_null_deref :
    init (some .handshakeFunc) (some .otherOp) = .nullDeref ∧
    init none (some .firrtlModule) = .nullDeref ∧
    init (some .handshakeFunc) (some .firrtlModule) = .success ∧
    initWithState ⟨none, none⟩ (some .otherOp) (some .firrtlModule) =
      (⟨none, none⟩,
        .diag .otherOp
          "expected reference operation to be a handshake.func operation.") :=
  ⟨rfl, rfl, rfl, rfl⟩

end HLT
